import Mathlib

/- A shallow embedding of the haskalah/image-service repository: the API-key guard
(`src/auth/api-key.guard.ts`), the image store (`src/image/image.service.ts`) and the
HTTP controller (`ImageController`), with theorems checking the natural-language
specification against the code. -/

namespace ImageSvc

/-- Modelled from the spec: the permission bits `API_KEY_PERMISSIONS` live in the external
`imagelib` package; the spec fixes "a small fixed set of independent bits (read, write,
delete, admin) combinable by bitwise OR". -/
def PERM_READ : Nat := 1

/-- Modelled from the spec: the write permission bit. -/
def PERM_WRITE : Nat := 2

/-- Modelled from the spec: the delete permission bit. -/
def PERM_DELETE : Nat := 4

/-- Modelled from the spec: the admin permission bit. -/
def PERM_ADMIN : Nat := 8

/-- An API key record (`IApiKey` from `imagelib`): `Key` stores the sha256 hex digest of
the raw secret, never the secret itself. -/
structure ApiKeyRecord where
  ApiKeyID : Nat
  AppName : String
  Key : String
  Permissions : Nat
  Active : Bool
deriving DecidableEq

/-- Errors thrown by the guard. The guard in `api-key.guard.ts` only ever constructs
`UnauthorizedException` (HTTP 401); `ForbiddenException` (HTTP 403) exists in the NestJS
framework and is included so that statements can distinguish the two error kinds. -/
inductive GuardError where
  | unauthorizedException (msg : String)
  | forbiddenException (msg : String)
deriving DecidableEq

/-- Modelled from the spec: `hasApiPermission` is imported from the external `imagelib`
package; per the spec the authorization step fails exactly when "requiredPermission is
non-zero and the bitwise AND of the record's permission mask and requiredPermission is
zero", so the predicate holds when the AND is non-zero. -/
def hasApiPermission (mask required : Nat) : Bool := mask &&& required != 0

/-- `ApiKeyGuard.canActivate` from `src/auth/api-key.guard.ts`, parametrised by the digest
function (`hashKey`, sha256 hex) and the `ApiKeyModel` collection. `headerApiKey` is
`request.headers['x-api-key']`; a missing header and an empty string are both falsy in JS,
so both take the first rejection branch. `requiredPermission` is what the reflector reads
off the handler metadata; `undefined` and `0` are both falsy, so `0` models both and skips
the permission check. -/
def canActivate (hash : String → String) (keys : List ApiKeyRecord)
    (headerApiKey : Option String) (requiredPermission : Nat) :
    Except GuardError ApiKeyRecord :=
  match headerApiKey with
  | none => .error (.unauthorizedException "Missing X-API-Key header")
  | some apiKey =>
    if apiKey = "" then .error (.unauthorizedException "Missing X-API-Key header")
    else
      match keys.find? (fun k => k.Key == hash apiKey && k.Active) with
      | none => .error (.unauthorizedException "Invalid or inactive API key")
      | some keyRecord =>
        if requiredPermission != 0 && !hasApiPermission keyRecord.Permissions requiredPermission
        then .error (.unauthorizedException "Insufficient permissions")
        else .ok keyRecord

/-- The routes of `ImageController` (`@Controller('image')`). -/
inductive Route where
  | upload
  | getByID
  | getFile
  | list
  | update
  | delete
deriving DecidableEq

/-- The `@RequirePermission` metadata on each handler of `ImageController`: every route of
the controller is decorated, `getFile` included. -/
def requiredPermissionFor : Route → Nat
  | .upload => PERM_WRITE
  | .getByID => PERM_READ
  | .getFile => PERM_READ
  | .list => PERM_READ
  | .update => PERM_WRITE
  | .delete => PERM_DELETE

/-- The guard as it runs on a request to a given route: `@UseGuards(ApiKeyGuard)` is
applied at class level on `ImageController`, so every handler goes through `canActivate`
with its decorated permission. -/
def canActivateRoute (hash : String → String) (keys : List ApiKeyRecord)
    (headerApiKey : Option String) (route : Route) : Except GuardError ApiKeyRecord :=
  canActivate hash keys headerApiKey (requiredPermissionFor route)

/-- The image lifecycle status (`IMAGE_STATUS` in `imagelib`: active or deleted). -/
inductive ImageStatus where
  | active
  | deleted
deriving DecidableEq

/-- An image metadata record (`IImage` / `ImageModel`); `createdAt` is the mongoose
timestamp, modelled as a natural number. -/
structure Image where
  ImageID : String
  AppID : String
  FileName : String
  OriginalFileName : String
  MimeType : String
  Size : Nat
  Tags : List String
  Description : String
  Alt : String
  Status : ImageStatus
  UploadedBy : String
  createdAt : Nat
deriving DecidableEq

/-- A multer file part (`Express.Multer.File`). Multer fills `size` with the number of
bytes streamed into `buffer`, so `size` is derived rather than stored. -/
structure MulterFile where
  originalname : String
  mimetype : String
  buffer : List Nat
deriving DecidableEq

/-- Multer's byte count for a file part. -/
def MulterFile.size (f : MulterFile) : Nat := f.buffer.length

/-- The mutable state visible to `ImageService`: the `ImageModel` collection in document
order, the tenant directories existing under the fixed upload root, and the files on
disk. A file is keyed by (tenant id, file name): with a fixed upload root that pair
determines `path.join(getAppDir(appID), fileName)`. -/
structure StoreState where
  db : List Image
  dirs : List String
  fs : List ((String × String) × List Nat)
deriving DecidableEq

/-- Errors surfaced by the service and controller pipeline: `BadRequestException`
(HTTP 400), `NotFoundException` (404), multer's over-limit rejection
(`PayloadTooLargeException`, 413), and a database error from a failed `save()`. -/
inductive SvcError where
  | badRequest (msg : String)
  | notFound (msg : String)
  | payloadTooLarge
  | dbError
deriving DecidableEq

/-- Modelled from the spec: `MIME_TYPES` is imported from the external `imagelib` package;
the spec and the README fix the allow-list as PNG, JPEG, WebP, GIF, SVG. -/
def MIME_TYPES : List String :=
  ["image/png", "image/jpeg", "image/webp", "image/gif", "image/svg+xml"]

/-- `ImageService.getExtFromMime`. -/
def getExtFromMime (mime : String) : String :=
  if mime = "image/png" then ".png"
  else if mime = "image/jpeg" then ".jpg"
  else if mime = "image/webp" then ".webp"
  else if mime = "image/gif" then ".gif"
  else if mime = "image/svg+xml" then ".svg"
  else ".bin"

/-- The part of a character list after the last occurrence of `sep` (the whole list when
`sep` does not occur). -/
def afterLastSep (sep : Char) : List Char → List Char
  | [] => []
  | c :: cs =>
    if cs.contains sep then afterLastSep sep cs
    else if c = sep then cs
    else c :: cs

/-- The suffix of `cs` starting at its last dot, when a dot occurs. -/
def suffixFromLastDot : List Char → Option (List Char)
  | [] => none
  | c :: cs =>
    match suffixFromLastDot cs with
    | some t => some t
    | none => if c = '.' then some (c :: cs) else none

/-- Node's `path.extname` on the inputs this service meets: trailing path separators are
ignored, the extension is the suffix of the basename from its last dot, and there is no
extension when the basename has no dot, when its only dot is its first character (a
dotfile), or when the basename is exactly "..". -/
def extname (p : String) : String :=
  let b := afterLastSep '/' ((p.data.reverse.dropWhile (fun c => c = '/')).reverse)
  if b = ['.', '.'] then ""
  else
    match suffixFromLastDot b with
    | none => ""
    | some t => if t.length = b.length then "" else String.mk t

/-- `fs.existsSync` on the modelled disk. -/
def fsExists (fs : List ((String × String) × List Nat)) (key : String × String) : Bool :=
  fs.any (fun e => e.1 == key)

/-- `fs.writeFileSync`: overwrites the entry when the path exists, appends it otherwise. -/
def fsWrite (fs : List ((String × String) × List Nat)) (key : String × String)
    (content : List Nat) : List ((String × String) × List Nat) :=
  if fsExists fs key then fs.map (fun e => if e.1 == key then (key, content) else e)
  else fs ++ [(key, content)]

/-- `fs.rmSync`: removes every entry at the path. -/
def fsRemove (fs : List ((String × String) × List Nat)) (key : String × String) :
    List ((String × String) × List Nat) :=
  fs.filter (fun e => !(e.1 == key))

/-- `ImageService.getAppDir`: makes the tenant directory exist (mkdir recursive) under the
upload root; the directory is identified by the tenant id. -/
def getAppDir (s : StoreState) (appID : String) : StoreState :=
  if s.dirs.contains appID then s else { s with dirs := s.dirs ++ [appID] }

/-- The optional metadata fields accepted by upload and by updateMetadata
(`{ tags?: string[]; description?: string; alt?: string }`); `none` models an absent
(`undefined`) field. -/
structure MetaPatch where
  tags : Option (List String)
  description : Option String
  alt : Option String
deriving DecidableEq

/-- `ImageService.upload`. Effects external to the service are parameters: `imageID` is
the `crypto.randomUUID()` result, `now` the mongoose `createdAt` timestamp, and `saveOk`
whether `image.save()` succeeds (when it rejects, the file write has already happened).
The returned pair is the outcome and the state after the call. -/
def upload (imageID : String) (now : Nat) (saveOk : Bool)
    (appID uploadedBy : String) (file : Option MulterFile) (metadata : MetaPatch)
    (s : StoreState) : Except SvcError Image × StoreState :=
  match file with
  | none => (.error (.badRequest "No file provided"), s)
  | some f =>
    if !(MIME_TYPES.contains f.mimetype) then
      (.error (.badRequest ("Unsupported file type: " ++ f.mimetype ++ ". Supported: " ++
        String.intercalate ", " MIME_TYPES)), s)
    else
      let ext := if extname f.originalname ≠ "" then extname f.originalname
                 else getExtFromMime f.mimetype
      let fileName := imageID ++ ext
      let s1 := getAppDir s appID
      let s2 := { s1 with fs := fsWrite s1.fs (appID, fileName) f.buffer }
      let image : Image :=
        { ImageID := imageID
          AppID := appID
          FileName := fileName
          OriginalFileName := f.originalname
          MimeType := f.mimetype
          Size := f.size
          Tags := metadata.tags.getD []
          Description := metadata.description.getD ""
          Alt := metadata.alt.getD ""
          Status := .active
          UploadedBy := uploadedBy
          createdAt := now }
      if saveOk then (.ok image, { s2 with db := s2.db ++ [image] })
      else (.error .dbError, s2)

/-- The active-only lookup used by read, update and delete:
`ImageModel.findOne({ ImageID, Status: ACTIVE })`, the first document in collection
order. -/
def findOneActive (db : List Image) (imageID : String) : Option Image :=
  db.find? (fun i => i.ImageID == imageID && i.Status == ImageStatus.active)

/-- `ImageService.getByID`. -/
def getByID (s : StoreState) (imageID : String) : Except SvcError Image :=
  match findOneActive s.db imageID with
  | none => .error (.notFound "Image not found")
  | some image => .ok image

/-- `ImageService.getFilePath`: resolves the active record, computes the on-disk path (the
`getAppDir` call creates the tenant directory as a side effect), and fails when the file
is absent despite an active record. -/
def getFilePath (s : StoreState) (imageID : String) :
    Except SvcError (String × String) × StoreState :=
  match findOneActive s.db imageID with
  | none => (.error (.notFound "Image not found"), s)
  | some image =>
    let s1 := getAppDir s image.AppID
    let key := (image.AppID, image.FileName)
    if fsExists s1.fs key then (.ok key, s1)
    else (.error (.notFound "Image file not found on disk"), s1)

/-- Mongo `updateOne({ ImageID: imageID }, { $set: ... })`: applies `f` to the first
document whose `ImageID` matches, leaving every other document unchanged. -/
def updateOneByID (imageID : String) (f : Image → Image) : List Image → List Image
  | [] => []
  | i :: rest =>
    if i.ImageID = imageID then f i :: rest
    else i :: updateOneByID imageID f rest

/-- The `$set` document built by `updateMetadata` (a field enters `setFields` only when
the corresponding update is not `undefined`), applied to a document. -/
def applySetFields (u : MetaPatch) (i : Image) : Image :=
  { i with Tags := u.tags.getD i.Tags
           Description := u.description.getD i.Description
           Alt := u.alt.getD i.Alt }

/-- `ImageService.updateMetadata`: resolves the target through the active-only `getByID`,
applies `$set` of the supplied fields on the first `ImageID` match, and returns
`findOne({ ImageID })` — an `Option`, faithful to the unchecked cast in the source. -/
def updateMetadata (s : StoreState) (imageID : String) (updates : MetaPatch) :
    Except SvcError (Option Image) × StoreState :=
  match findOneActive s.db imageID with
  | none => (.error (.notFound "Image not found"), s)
  | some _ =>
    let db2 := updateOneByID imageID (applySetFields updates) s.db
    (.ok (db2.find? (fun i => i.ImageID == imageID)), { s with db := db2 })

/-- `ImageService.delete`: resolves the target through the active-only `getByID`, flips
`Status` to deleted on the first `ImageID` match, then removes the file when it exists
(a missing file is tolerated); the `getAppDir` call creates the tenant directory as a
side effect. -/
def delete (s : StoreState) (imageID : String) : Except SvcError Unit × StoreState :=
  match findOneActive s.db imageID with
  | none => (.error (.notFound "Image not found"), s)
  | some image =>
    let db2 := updateOneByID imageID (fun i => { i with Status := .deleted }) s.db
    let s1 := getAppDir { s with db := db2 } image.AppID
    let key := (image.AppID, image.FileName)
    let fs2 := if fsExists s1.fs key then fsRemove s1.fs key else s1.fs
    (.ok (), { s1 with fs := fs2 })

/-- Whether `n` occurs as a contiguous subsequence of the second list. -/
def containsSeq (n : List Char) : List Char → Bool
  | [] => n.isEmpty
  | c :: cs => n.isPrefixOf (c :: cs) || containsSeq n cs

/-- Case-insensitive containment: the model of a mongo
`{ $regex: needle, $options: 'i' }` clause for the literal (metacharacter-free) patterns
this service is given. -/
def ciContains (hay needle : String) : Bool :=
  containsSeq (needle.data.map Char.toLower) (hay.data.map Char.toLower)

/-- `list` options as the service receives them; `none` models an absent (`undefined`)
field. -/
structure ListOptions where
  page : Option Nat
  limit : Option Nat
  tags : Option (List String)
  search : Option String
deriving DecidableEq

/-- The mongo filter document that `list` builds: tenant and active status always; a
`Tags: { $in: tags }` clause (match when at least one tag is shared) only when
`options.tags` is a non-empty array (`options.tags?.length` is falsy for `undefined` and
for `[]`); an `$or` of three case-insensitive regex clauses only when `options.search` is
truthy (not `undefined`, not the empty string). -/
def matchesFilter (appID : String) (tags : Option (List String)) (search : Option String)
    (i : Image) : Bool :=
  i.AppID == appID && i.Status == ImageStatus.active &&
  (match tags with
   | none => true
   | some ts => if ts.isEmpty then true else ts.any (fun t => i.Tags.contains t)) &&
  (match search with
   | none => true
   | some q =>
     if q = "" then true
     else ciContains i.Description q || ciContains i.OriginalFileName q ||
          ciContains i.Alt q)

/-- `ImageService.list`: effective page `options.page || 1`, effective limit
`Math.min(options.limit || 20, 100)`, skip `(page - 1) * limit`, then
`find(filter).sort({ createdAt: -1 }).skip(skip).limit(limit)` together with a
pre-pagination `countDocuments(filter)` total. -/
def list (s : StoreState) (appID : String) (o : ListOptions) : List Image × Nat :=
  let page := match o.page with | none => 1 | some p => if p = 0 then 1 else p
  let limit :=
    min (match o.limit with | none => 20 | some l => if l = 0 then 20 else l) 100
  let skip := (page - 1) * limit
  let matching := s.db.filter (matchesFilter appID o.tags o.search)
  let sorted := matching.mergeSort (fun a b => decide (b.createdAt ≤ a.createdAt))
  ((sorted.drop skip).take limit, matching.length)

/-- The multer file-size limit configured on the upload route's `FileInterceptor`:
`10 * 1024 * 1024` bytes. -/
def FILE_SIZE_LIMIT : Nat := 10 * 1024 * 1024

/-- The upload endpoint pipeline (`ImageController.upload`): the `FileInterceptor` with
`limits.fileSize` rejects an over-limit file part with `PayloadTooLargeException` before
the handler runs; the handler then calls `ImageService.upload` with the authenticated
key's `AppName` as both the tenant and the uploader, the tags parsed from the JSON body
field (`tags ? JSON.parse(tags) : []`, so the service always receives an array), and the
optional description and alt fields passed through. -/
def controllerUpload (imageID : String) (now : Nat) (saveOk : Bool)
    (apiKey : ApiKeyRecord) (file : Option MulterFile) (parsedTags : List String)
    (description alt : Option String) (s : StoreState) :
    Except SvcError Image × StoreState :=
  match file with
  | some f =>
    if FILE_SIZE_LIMIT < f.size then (.error .payloadTooLarge, s)
    else upload imageID now saveOk apiKey.AppName apiKey.AppName (some f)
      { tags := some parsedTags, description := description, alt := alt } s
  | none =>
    upload imageID now saveOk apiKey.AppName apiKey.AppName none
      { tags := some parsedTags, description := description, alt := alt } s

/-- Whether a guard outcome is a `ForbiddenException`. -/
def isForbidden : Except GuardError ApiKeyRecord → Bool
  | .error (.forbiddenException _) => true
  | _ => false

/-- Whether a service outcome is a success. -/
def isOkResult (r : Except SvcError Image) : Bool :=
  match r with
  | .ok _ => true
  | .error _ => false

/-- The collection invariant that `crypto.randomUUID()` maintains: no two documents share
an `ImageID`. -/
def IDsNodup (db : List Image) : Prop :=
  db.Pairwise (fun a b => a.ImageID ≠ b.ImageID)

end ImageSvc

namespace ImageSvc

/- Helper lemmas about the modelled filesystem. -/

theorem fsExists_fsWrite_self (fs : List ((String × String) × List Nat))
    (key : String × String) (content : List Nat) :
    fsExists (fsWrite fs key content) key = true := by
  unfold fsWrite
  split
  · next h =>
    unfold fsExists at h ⊢
    simp only [List.any_eq_true, List.mem_map] at h ⊢
    obtain ⟨e, he, heq⟩ := h
    exact ⟨(key, content), ⟨e, he, by simp [heq]⟩, by simp⟩
  · unfold fsExists
    simp

theorem fsExists_fsWrite_of_exists (fs : List ((String × String) × List Nat))
    (key key' : String × String) (content : List Nat) (h : fsExists fs key' = true) :
    fsExists (fsWrite fs key content) key' = true := by
  unfold fsWrite
  split
  · unfold fsExists at h ⊢
    simp only [List.any_eq_true, List.mem_map] at h ⊢
    obtain ⟨e, he, heq⟩ := h
    by_cases hk : (e.1 == key) = true
    · have hk' : e.1 = key := by simpa using hk
      have he' : e.1 = key' := by simpa using heq
      have hkk : key = key' := hk'.symm.trans he'
      exact ⟨(key, content), ⟨e, he, by simp [hk]⟩, by simp [hkk]⟩
    · exact ⟨e, ⟨e, he, by simp [hk]⟩, heq⟩
  · unfold fsExists at h ⊢
    simp [h]

theorem fsExists_fsRemove_self (fs : List ((String × String) × List Nat))
    (key : String × String) :
    fsExists (fsRemove fs key) key = false := by
  unfold fsExists fsRemove
  rw [Bool.eq_false_iff]
  intro hany
  simp only [List.any_eq_true, List.mem_filter, Bool.not_eq_true'] at hany
  obtain ⟨e, ⟨_, hne⟩, heq⟩ := hany
  rw [heq] at hne
  exact Bool.noConfusion hne

theorem getAppDir_db (s : StoreState) (appID : String) :
    (getAppDir s appID).db = s.db := by
  unfold getAppDir; split <;> rfl

theorem getAppDir_fs (s : StoreState) (appID : String) :
    (getAppDir s appID).fs = s.fs := by
  unfold getAppDir; split <;> rfl

theorem getAppDir_dirs_contains (s : StoreState) (appID : String) :
    (getAppDir s appID).dirs.contains appID = true := by
  unfold getAppDir
  split
  · assumption
  · simp

end ImageSvc

namespace ImageSvc

/- Helper lemmas about the active-only lookup and mongo updateOne. -/

theorem findOneActive_eq_none (db : List Image) (imageID : String)
    (h : ∀ i ∈ db, i.ImageID = imageID → i.Status ≠ ImageStatus.active) :
    findOneActive db imageID = none := by
  unfold findOneActive
  apply List.find?_eq_none.mpr
  intro x hx hpred
  simp only [Bool.and_eq_true, beq_iff_eq] at hpred
  exact h x hx hpred.1 hpred.2

theorem findOneActive_updateOne_deleted (imageID : String) (db : List Image)
    (hnodup : IDsNodup db) :
    findOneActive
      (updateOneByID imageID (fun i => { i with Status := ImageStatus.deleted }) db)
      imageID = none := by
  induction db with
  | nil => rfl
  | cons i rest ih =>
    rw [IDsNodup, List.pairwise_cons] at hnodup
    obtain ⟨hhead, htail⟩ := hnodup
    unfold updateOneByID
    split
    · next hid =>
      unfold findOneActive
      rw [List.find?_cons_of_neg _ (by simp)]
      apply List.find?_eq_none.mpr
      intro x hx hpred
      simp only [Bool.and_eq_true, beq_iff_eq] at hpred
      exact hhead x hx (hid ▸ hpred.1.symm ▸ rfl)
    · next hid =>
      unfold findOneActive
      rw [List.find?_cons_of_neg _ (by simp [hid])]
      exact ih htail

theorem find?_updateOne_of_findOneActive (imageID : String) (f : Image → Image)
    (hf : ∀ x, (f x).ImageID = x.ImageID)
    (db : List Image) (r : Image) (hnodup : IDsNodup db)
    (hfind : findOneActive db imageID = some r) :
    (updateOneByID imageID f db).find? (fun i => i.ImageID == imageID) = some (f r) := by
  induction db with
  | nil => exact Option.noConfusion hfind
  | cons i rest ih =>
    rw [IDsNodup, List.pairwise_cons] at hnodup
    obtain ⟨hhead, htail⟩ := hnodup
    unfold updateOneByID
    split
    · next hid =>
      by_cases hst : i.Status = ImageStatus.active
      · have hri : r = i := by
          unfold findOneActive at hfind
          rw [List.find?_cons_of_pos _ (by simp [hid, hst])] at hfind
          exact (Option.some_inj.mp hfind).symm
        subst hri
        rw [List.find?_cons_of_pos _ (by simp [hf, hid])]
      · exfalso
        unfold findOneActive at hfind
        rw [List.find?_cons_of_neg _ (by simp [hst])] at hfind
        have hnone : rest.find?
            (fun j => j.ImageID == imageID && j.Status == ImageStatus.active) = none := by
          apply List.find?_eq_none.mpr
          intro x hx hpred
          simp only [Bool.and_eq_true, beq_iff_eq] at hpred
          exact hhead x hx (hid ▸ hpred.1.symm ▸ rfl)
        rw [hnone] at hfind
        exact Option.noConfusion hfind
    · next hid =>
      unfold findOneActive at hfind
      rw [List.find?_cons_of_neg _ (by simp [hid])] at hfind
      rw [List.find?_cons_of_neg _ (by simp [hid])]
      exact ih htail hfind

end ImageSvc

namespace ImageSvc

/- Concrete fixtures used by counterexamples and witnesses. -/

/-- A key holding only the read bit. -/
def keyReadOnly : ApiKeyRecord :=
  { ApiKeyID := 1, AppName := "app1", Key := "rawkey1", Permissions := PERM_READ,
    Active := true }

/-- A key holding the write bit. -/
def keyApp : ApiKeyRecord :=
  { ApiKeyID := 2, AppName := "app1", Key := "k2", Permissions := PERM_WRITE,
    Active := true }

/-- The empty store. -/
def s0 : StoreState := { db := [], dirs := [], fs := [] }

/-- C1. The claim says GET /image/{id}/file succeeds without any credential and never
fails Unauthenticated on a missing or invalid X-API-Key header. The code at the failing
input: `ApiKeyGuard` is applied class-wide on `ImageController` and `getFile` carries
`@RequirePermission(READ)`, so a request to the file route with no X-API-Key header — and
likewise with an unknown key — is rejected with `UnauthorizedException`, exactly like
every other image operation. This contradicts the claim and the README, which documents
the endpoint as public. -/
theorem getFile_rejects_missing_credential :
    canActivateRoute id [] none Route.getFile =
        .error (.unauthorizedException "Missing X-API-Key header") ∧
    canActivateRoute id [] (some "unknown") Route.getFile =
        .error (.unauthorizedException "Invalid or inactive API key") ∧
    canActivateRoute id [keyApp] (some "k2") Route.getFile =
        .error (.unauthorizedException "Insufficient permissions") := by
  refine ⟨rfl, rfl, rfl⟩

/-- C2 counterexample. The claim says the authorization step fails with `Forbidden` when
the required permission is non-zero and the mask AND it is zero. At a concrete such input
(a read-only key on the upload route, which requires write), the guard fails with
`UnauthorizedException` — the same error class as authentication failures — and not with
any `ForbiddenException`. -/
theorem authorize_fails_unauthorized_not_forbidden :
    canActivateRoute id [keyReadOnly] (some "rawkey1") Route.upload =
        .error (.unauthorizedException "Insufficient permissions") ∧
    isForbidden (canActivateRoute id [keyReadOnly] (some "rawkey1") Route.upload)
        = false := by
  refine ⟨rfl, rfl⟩

/-- C2 (amended): for an authenticated key record, the authorization step fails — with
`UnauthorizedException "Insufficient permissions"`, not a Forbidden-kind error — if and
only if the required permission is non-zero and the bitwise AND of the record's permission
mask and the required permission is zero; when the required permission is zero or the AND
is non-zero, authorization succeeds and returns the record. -/
theorem authorize_iff_bitmask (hash : String → String) (keys : List ApiKeyRecord)
    (rawKey : String) (required : Nat) (r : ApiKeyRecord)
    (hr : rawKey ≠ "")
    (hfind : keys.find? (fun k => k.Key == hash rawKey && k.Active) = some r) :
    (canActivate hash keys (some rawKey) required =
        .error (.unauthorizedException "Insufficient permissions") ↔
      (required ≠ 0 ∧ r.Permissions &&& required = 0)) ∧
    ((required = 0 ∨ r.Permissions &&& required ≠ 0) →
      canActivate hash keys (some rawKey) required = .ok r) := by
  have hred : canActivate hash keys (some rawKey) required =
      if (required != 0 && !hasApiPermission r.Permissions required) = true
      then .error (.unauthorizedException "Insufficient permissions") else .ok r := by
    simp only [canActivate, if_neg hr, hfind]
  by_cases hc : (required != 0 && !hasApiPermission r.Permissions required) = true
  · rw [hred, if_pos hc]
    simp only [hasApiPermission, Bool.and_eq_true, bne_iff_ne, Bool.not_eq_true',
      bne_eq_false_iff_eq] at hc
    constructor
    · exact iff_of_true rfl hc
    · intro hd
      rcases hd with h0 | hAnd
      · exact absurd h0 hc.1
      · exact absurd hc.2 hAnd
  · rw [hred, if_neg hc]
    simp only [hasApiPermission, Bool.and_eq_true, bne_iff_ne, Bool.not_eq_true',
      bne_eq_false_iff_eq, not_and] at hc
    constructor
    · constructor
      · intro h
        exact Except.noConfusion h
      · intro h
        exact absurd h.2 (hc h.1)
    · intro _
      rfl

/-- C2 witness: the amended theorem applied at a concrete authenticated read-only key and
the write requirement of the upload route. -/
theorem authorize_iff_bitmask_witness :
    (canActivate id [keyReadOnly] (some "rawkey1") 2 =
        .error (.unauthorizedException "Insufficient permissions") ↔
      ((2 : Nat) ≠ 0 ∧ keyReadOnly.Permissions &&& 2 = 0)) ∧
    (((2 : Nat) = 0 ∨ keyReadOnly.Permissions &&& 2 ≠ 0) →
      canActivate id [keyReadOnly] (some "rawkey1") 2 = .ok keyReadOnly) :=
  authorize_iff_bitmask id [keyReadOnly] "rawkey1" 2 keyReadOnly (by decide) rfl

end ImageSvc

namespace ImageSvc

/-- An empty PNG file part. -/
def emptyPng : MulterFile := { originalname := "a.png", mimetype := "image/png", buffer := [] }

/-- C3 counterexample. The claim says a create whose binary content is empty fails with
`InvalidInput` and leaves the state unchanged. At a concrete empty upload the pipeline
succeeds: neither multer (an empty part is under the size limit) nor `ImageService.upload`
(which only checks `!file` and the MIME allow-list) rejects empty content, a record is
created and an empty file is written. -/
theorem empty_upload_is_accepted :
    isOkResult (controllerUpload "id1" 5 true keyApp (some emptyPng) [] none none s0).1
        = true ∧
    (controllerUpload "id1" 5 true keyApp (some emptyPng) [] none none s0).2.db.length
        = 1 ∧
    (controllerUpload "id1" 5 true keyApp (some emptyPng) [] none none s0).2.fs.length
        = 1 := by
  refine ⟨rfl, rfl, rfl⟩

/-- C3 (amended): an upload whose file part is absent fails with `InvalidInput`
(`BadRequestException "No file provided"`); a file part over the 10 MiB limit is rejected
before the handler by the route's `FileInterceptor` with `PayloadTooLargeException`, not
`InvalidInput`; a file part whose declared MIME type is outside the allow-list fails with
`InvalidInput`; in every one of these failures no file is written and no metadata record
is created (the state is returned unchanged). Empty content, however, is accepted. -/
theorem upload_validation (imageID : String) (now : Nat) (saveOk : Bool)
    (k : ApiKeyRecord) (parsedTags : List String) (description alt : Option String)
    (s : StoreState) :
    (controllerUpload imageID now saveOk k none parsedTags description alt s =
        (.error (.badRequest "No file provided"), s)) ∧
    (∀ f : MulterFile, FILE_SIZE_LIMIT < f.size →
      controllerUpload imageID now saveOk k (some f) parsedTags description alt s =
        (.error .payloadTooLarge, s)) ∧
    (∀ f : MulterFile, ¬ FILE_SIZE_LIMIT < f.size →
      MIME_TYPES.contains f.mimetype = false →
      controllerUpload imageID now saveOk k (some f) parsedTags description alt s =
        (.error (.badRequest ("Unsupported file type: " ++ f.mimetype ++ ". Supported: " ++
          String.intercalate ", " MIME_TYPES)), s)) := by
  refine ⟨rfl, ?_, ?_⟩
  · intro f hf
    simp only [controllerUpload, if_pos hf]
  · intro f hsz hmime
    simp only [controllerUpload, if_neg hsz, upload, hmime, Bool.not_false, if_pos]

/-- An over-limit PNG file part. -/
def bigPng : MulterFile :=
  { originalname := "b.png", mimetype := "image/png",
    buffer := List.replicate (FILE_SIZE_LIMIT + 1) 0 }

/-- A small file part with a disallowed MIME type. -/
def smallTxt : MulterFile :=
  { originalname := "c.txt", mimetype := "text/plain", buffer := [1] }

/-- C3 witness: the amended theorem applied at concrete inputs for each rejection case. -/
theorem upload_validation_witness :
    (controllerUpload "w3" 0 true keyApp none [] none none s0 =
        (.error (.badRequest "No file provided"), s0)) ∧
    (controllerUpload "w3" 0 true keyApp (some bigPng) [] none none s0 =
        (.error .payloadTooLarge, s0)) ∧
    (controllerUpload "w3" 0 true keyApp (some smallTxt) [] none none s0 =
        (.error (.badRequest ("Unsupported file type: " ++ "text/plain" ++
          ". Supported: " ++ String.intercalate ", " MIME_TYPES)), s0)) :=
  ⟨(upload_validation "w3" 0 true keyApp [] none none s0).1,
   (upload_validation "w3" 0 true keyApp [] none none s0).2.1 bigPng
     (by simp [bigPng, MulterFile.size]),
   (upload_validation "w3" 0 true keyApp [] none none s0).2.2 smallTxt
     (by simp [smallTxt, MulterFile.size, FILE_SIZE_LIMIT]) rfl⟩

/-- A record in deleted status. -/
def imgDel : Image :=
  { ImageID := "i1", AppID := "app1", FileName := "i1.png", OriginalFileName := "o.png",
    MimeType := "image/png", Size := 3, Tags := ["t"], Description := "d", Alt := "a",
    Status := .deleted, UploadedBy := "app1", createdAt := 1 }

/-- A store whose only record is deleted. -/
def sDel : StoreState := { db := [imgDel], dirs := ["app1"], fs := [] }

/-- C4 counterexample. The claim says update-metadata still applies to a record in deleted
status and does not fail with NotFound. At a concrete store whose only record `i1` is
deleted, `updateMetadata` fails with `NotFoundException "Image not found"` and changes
nothing: its target resolution goes through `getByID`, whose
`findOne({ ImageID, Status: ACTIVE })` filter is active-only. -/
theorem update_on_deleted_fails :
    updateMetadata sDel "i1" { tags := none, description := some "x", alt := none } =
      (.error (.notFound "Image not found"), sDel) := rfl

/-- C4 (amended): update-metadata resolves its target through the active-only lookup, so
when every record carrying the identifier is in deleted status (in particular after a
delete), it fails with `NotFound` and leaves the state unchanged — metadata updates are
restricted to active records. -/
theorem update_restricted_to_active (s : StoreState) (imageID : String) (u : MetaPatch)
    (h : ∀ r ∈ s.db, r.ImageID = imageID → r.Status = ImageStatus.deleted) :
    updateMetadata s imageID u = (.error (.notFound "Image not found"), s) := by
  have hnone : findOneActive s.db imageID = none := by
    apply findOneActive_eq_none
    intro i hi hid hst
    have := h i hi hid
    rw [this] at hst
    exact ImageStatus.noConfusion hst
  simp only [updateMetadata, hnone]

/-- C4 witness: the amended theorem applied at a concrete store whose only record is
deleted. -/
theorem update_restricted_to_active_witness :
    updateMetadata sDel "i1" { tags := some ["y"], description := none, alt := none } =
      (.error (.notFound "Image not found"), sDel) :=
  update_restricted_to_active sDel "i1"
    { tags := some ["y"], description := none, alt := none } (by decide)

end ImageSvc

namespace ImageSvc

/-- C5: in every create that passes validation, the binary content is written to the
tenant's directory (created if absent) strictly before the metadata record is created:
whatever the metadata write does, the file is on disk in the tenant directory afterwards;
when `save()` fails the call errors with no record created and only the unreferenced file
remaining; when it succeeds exactly one record is appended; and the invariant that every
active record has a backing file on disk is preserved. -/
theorem upload_writes_file_before_record (imageID : String) (now : Nat) (saveOk : Bool)
    (appID uploadedBy : String) (f : MulterFile) (metadata : MetaPatch) (s : StoreState)
    (hmime : MIME_TYPES.contains f.mimetype = true) :
    ((upload imageID now saveOk appID uploadedBy (some f) metadata s).2.dirs.contains appID
        = true) ∧
    fsExists (upload imageID now saveOk appID uploadedBy (some f) metadata s).2.fs
        (appID, imageID ++ (if extname f.originalname ≠ "" then extname f.originalname
                            else getExtFromMime f.mimetype)) = true ∧
    (saveOk = false →
      (upload imageID now saveOk appID uploadedBy (some f) metadata s).1 =
          .error .dbError ∧
      (upload imageID now saveOk appID uploadedBy (some f) metadata s).2.db = s.db) ∧
    (saveOk = true →
      isOkResult (upload imageID now saveOk appID uploadedBy (some f) metadata s).1
          = true ∧
      (upload imageID now saveOk appID uploadedBy (some f) metadata s).2.db.length =
          s.db.length + 1) ∧
    ((∀ i ∈ s.db, i.Status = ImageStatus.active →
        fsExists s.fs (i.AppID, i.FileName) = true) →
      ∀ i ∈ (upload imageID now saveOk appID uploadedBy (some f) metadata s).2.db,
        i.Status = ImageStatus.active →
        fsExists (upload imageID now saveOk appID uploadedBy (some f) metadata s).2.fs
          (i.AppID, i.FileName) = true) := by
  cases saveOk with
  | false =>
    simp only [upload, hmime, Bool.not_true, Bool.false_eq_true, if_false]
    refine ⟨getAppDir_dirs_contains s appID, fsExists_fsWrite_self _ _ _, ?_, ?_, ?_⟩
    · intro _
      exact ⟨by trivial, getAppDir_db s appID⟩
    · intro h
      exact absurd h (by simp)
    · intro hinv i hi hact
      rw [getAppDir_db] at hi
      refine fsExists_fsWrite_of_exists _ _ _ _ ?_
      rw [getAppDir_fs]
      exact hinv i hi hact
  | true =>
    simp only [upload, hmime, Bool.not_true, Bool.false_eq_true, if_false, if_true]
    refine ⟨getAppDir_dirs_contains s appID, fsExists_fsWrite_self _ _ _, ?_, ?_, ?_⟩
    · intro h
      exact absurd h (by simp)
    · intro _
      refine ⟨rfl, ?_⟩
      rw [List.length_append, getAppDir_db]
      rfl
    · intro hinv i hi hact
      rw [List.mem_append, getAppDir_db] at hi
      rcases hi with hi | hi
      · refine fsExists_fsWrite_of_exists _ _ _ _ ?_
        rw [getAppDir_fs]
        exact hinv i hi hact
      · simp only [List.mem_singleton] at hi
        subst hi
        exact fsExists_fsWrite_self _ _ _

end ImageSvc

namespace ImageSvc

/-- A one-byte PNG file part. -/
def pngFile : MulterFile :=
  { originalname := "p.png", mimetype := "image/png", buffer := [7] }

/-- An all-absent metadata patch. -/
def noMeta : MetaPatch := { tags := none, description := none, alt := none }

/-- C5 witness: the ordering theorem applied at a concrete valid upload whose metadata
write fails — the file is on disk, the directory exists, and no record was created. -/
theorem upload_writes_file_before_record_witness :
    ((upload "u5" 0 false "app1" "app1" (some pngFile) noMeta s0).2.dirs.contains "app1"
        = true) ∧
    fsExists (upload "u5" 0 false "app1" "app1" (some pngFile) noMeta s0).2.fs
        ("app1", "u5" ++ (if extname pngFile.originalname ≠ "" then
            extname pngFile.originalname else getExtFromMime pngFile.mimetype)) = true ∧
    ((upload "u5" 0 false "app1" "app1" (some pngFile) noMeta s0).1 = .error .dbError ∧
     (upload "u5" 0 false "app1" "app1" (some pngFile) noMeta s0).2.db = s0.db) :=
  ⟨(upload_writes_file_before_record "u5" 0 false "app1" "app1" pngFile noMeta s0 rfl).1,
   (upload_writes_file_before_record "u5" 0 false "app1" "app1" pngFile noMeta s0 rfl).2.1,
   (upload_writes_file_before_record "u5" 0 false "app1" "app1" pngFile noMeta s0
      rfl).2.2.1 rfl⟩

/-- An active record. -/
def imgAct : Image :=
  { ImageID := "i2", AppID := "app1", FileName := "i2.png", OriginalFileName := "o2.png",
    MimeType := "image/png", Size := 3, Tags := [], Description := "", Alt := "",
    Status := .active, UploadedBy := "app1", createdAt := 2 }

/-- A store holding one active record and its backing file. -/
def sAct : StoreState :=
  { db := [imgAct], dirs := ["app1"], fs := [(("app1", "i2.png"), [9])] }

/-- C6: in a store whose records carry pairwise distinct identifiers (the invariant
`crypto.randomUUID()` maintains), a successful delete flips the resolved record's status
to deleted and removes its file (a missing file is tolerated: the delete succeeds with no
hypothesis on the disk); afterwards get-metadata on the identifier fails with `NotFound`,
and a second delete on the same identifier also fails with `NotFound` — delete is not
idempotent. -/
theorem delete_not_idempotent (s : StoreState) (imageID : String) (r : Image)
    (hnodup : IDsNodup s.db)
    (hfind : findOneActive s.db imageID = some r) :
    (delete s imageID).1 = .ok () ∧
    getByID (delete s imageID).2 imageID = .error (.notFound "Image not found") ∧
    (delete (delete s imageID).2 imageID).1 = .error (.notFound "Image not found") ∧
    { r with Status := ImageStatus.deleted } ∈ (delete s imageID).2.db ∧
    fsExists (delete s imageID).2.fs (r.AppID, r.FileName) = false := by
  have hdb : (delete s imageID).2.db =
      updateOneByID imageID (fun i => { i with Status := ImageStatus.deleted }) s.db := by
    simp only [delete, hfind, getAppDir_db]
  have hfs : (delete s imageID).2.fs =
      if fsExists s.fs (r.AppID, r.FileName) = true
      then fsRemove s.fs (r.AppID, r.FileName) else s.fs := by
    simp only [delete, hfind, getAppDir_fs]
  have hnone : findOneActive (delete s imageID).2.db imageID = none := by
    rw [hdb]
    exact findOneActive_updateOne_deleted imageID s.db hnodup
  refine ⟨?_, ?_, ?_, ?_, ?_⟩
  · simp only [delete, hfind]
  · simp only [getByID, hnone]
  · revert hnone
    generalize (delete s imageID).2 = t
    intro hnone
    simp only [delete, hnone]
  · rw [hdb]
    exact List.mem_of_find?_eq_some
      (find?_updateOne_of_findOneActive imageID
        (fun i => { i with Status := ImageStatus.deleted }) (fun _ => rfl) s.db r hnodup
        hfind)
  · rw [hfs]
    by_cases hex : fsExists s.fs (r.AppID, r.FileName) = true
    · rw [if_pos hex]
      exact fsExists_fsRemove_self _ _
    · rw [if_neg hex]
      simpa using hex

/-- C6 witness: the delete theorem applied at a concrete store with one active record and
its file on disk. -/
theorem delete_not_idempotent_witness :
    (delete sAct "i2").1 = .ok () ∧
    getByID (delete sAct "i2").2 "i2" = .error (.notFound "Image not found") ∧
    (delete (delete sAct "i2").2 "i2").1 = .error (.notFound "Image not found") ∧
    { imgAct with Status := ImageStatus.deleted } ∈ (delete sAct "i2").2.db ∧
    fsExists (delete sAct "i2").2.fs (imgAct.AppID, imgAct.FileName) = false :=
  delete_not_idempotent sAct "i2" imgAct (by simp [IDsNodup, sAct]) rfl

end ImageSvc

namespace ImageSvc

/-- C7: for every update-metadata call that resolves its target (identifiers pairwise
distinct, the invariant `crypto.randomUUID()` maintains), the refreshed record has exactly
the supplied fields changed — each updated field takes the supplied value, each omitted
(`undefined`) field keeps its prior value (so an update supplying only a description
leaves tags and alt text unchanged) — and identifier, tenant, filename, original filename,
MIME type, size, status, uploader and creation timestamp are all unchanged, as are the
disk and the directories. -/
theorem update_changes_only_supplied_fields (s : StoreState) (imageID : String) (u : MetaPatch) (r : Image)
    (hnodup : IDsNodup s.db)
    (hfind : findOneActive s.db imageID = some r) :
    (updateMetadata s imageID u).1 = .ok (some (applySetFields u r)) ∧
    (applySetFields u r).Tags = u.tags.getD r.Tags ∧
    (applySetFields u r).Description = u.description.getD r.Description ∧
    (applySetFields u r).Alt = u.alt.getD r.Alt ∧
    (applySetFields u r).ImageID = r.ImageID ∧
    (applySetFields u r).AppID = r.AppID ∧
    (applySetFields u r).FileName = r.FileName ∧
    (applySetFields u r).OriginalFileName = r.OriginalFileName ∧
    (applySetFields u r).MimeType = r.MimeType ∧
    (applySetFields u r).Size = r.Size ∧
    (applySetFields u r).Status = r.Status ∧
    (applySetFields u r).UploadedBy = r.UploadedBy ∧
    (applySetFields u r).createdAt = r.createdAt ∧
    (updateMetadata s imageID u).2.fs = s.fs ∧
    (updateMetadata s imageID u).2.dirs = s.dirs := by
  have hfd := find?_updateOne_of_findOneActive imageID (applySetFields u)
      (fun _ => rfl) s.db r hnodup hfind
  refine ⟨?_, rfl, rfl, rfl, rfl, rfl, rfl, rfl, rfl, rfl, rfl, rfl, rfl, ?_, ?_⟩
  · simp only [updateMetadata, hfind, hfd]
  · simp only [updateMetadata, hfind]
  · simp only [updateMetadata, hfind]

/-- C7 witness: the partial-update theorem applied at a concrete store with one active
record, supplying only a description — tags and alt text keep their prior values. -/
theorem update_changes_only_supplied_fields_witness :
    (updateMetadata sAct "i2"
        { tags := none, description := some "new", alt := none }).1 =
      .ok (some (applySetFields
        { tags := none, description := some "new", alt := none } imgAct)) ∧
    (applySetFields { tags := none, description := some "new", alt := none }
        imgAct).Tags = imgAct.Tags ∧
    (applySetFields { tags := none, description := some "new", alt := none }
        imgAct).Alt = imgAct.Alt ∧
    (applySetFields { tags := none, description := some "new", alt := none }
        imgAct).Description = "new" ∧
    (applySetFields { tags := none, description := some "new", alt := none }
        imgAct).Status = imgAct.Status :=
  ⟨(update_changes_only_supplied_fields sAct "i2" { tags := none, description := some "new", alt := none }
      imgAct (by simp [IDsNodup, sAct]) rfl).1,
   (update_changes_only_supplied_fields sAct "i2" { tags := none, description := some "new", alt := none }
      imgAct (by simp [IDsNodup, sAct]) rfl).2.1,
   (update_changes_only_supplied_fields sAct "i2" { tags := none, description := some "new", alt := none }
      imgAct (by simp [IDsNodup, sAct]) rfl).2.2.2.1,
   (update_changes_only_supplied_fields sAct "i2" { tags := none, description := some "new", alt := none }
      imgAct (by simp [IDsNodup, sAct]) rfl).2.2.1,
   (update_changes_only_supplied_fields sAct "i2" { tags := none, description := some "new", alt := none }
      imgAct (by simp [IDsNodup, sAct]) rfl).2.2.2.2.2.2.2.2.2.2.1⟩

end ImageSvc

namespace ImageSvc

theorem pairwise_mergeSort_createdAt (l : List Image) :
    (l.mergeSort (fun a b => decide (b.createdAt ≤ a.createdAt))).Pairwise
      (fun a b => b.createdAt ≤ a.createdAt) := by
  have h : (l.mergeSort (fun a b => decide (b.createdAt ≤ a.createdAt))).Pairwise
      (fun a b => decide (b.createdAt ≤ a.createdAt) = true) :=
    List.sorted_mergeSort
      (fun a b c hab hbc => by
        simp only [decide_eq_true_eq] at hab hbc
        exact decide_eq_true_eq.mpr (le_trans hbc hab))
      (fun a b => by
        simp only [Bool.or_eq_true, decide_eq_true_eq]
        exact Nat.le_total b.createdAt a.createdAt)
      l
  exact h.imp (fun hab => by simpa using hab)

/-- C8: every record returned by `list` is an active record of the given tenant drawn
from the collection; the returned page is ordered newest-created-first; the returned
total is the count of records matching the filters before pagination; the effective page
defaults to 1 and the effective page size defaults to 20 and is capped at 100; the page
is the slice of the sorted matches skipping `(page - 1) * size` records; and at most
`size` records are returned. -/
theorem list_semantics (s : StoreState) (appID : String) (o : ListOptions) :
    (∀ i ∈ (list s appID o).1,
        i ∈ s.db ∧ i.Status = ImageStatus.active ∧ i.AppID = appID) ∧
    (list s appID o).1.Pairwise (fun a b => b.createdAt ≤ a.createdAt) ∧
    (list s appID o).2 = (s.db.filter (matchesFilter appID o.tags o.search)).length ∧
    (list s appID o).1 =
      (((s.db.filter (matchesFilter appID o.tags o.search)).mergeSort
          (fun a b => decide (b.createdAt ≤ a.createdAt))).drop
        (((match o.page with | none => 1 | some p => if p = 0 then 1 else p) - 1) *
          min (match o.limit with | none => 20 | some l => if l = 0 then 20 else l) 100)).take
        (min (match o.limit with | none => 20 | some l => if l = 0 then 20 else l) 100) ∧
    min (match o.limit with | none => 20 | some l => if l = 0 then 20 else l) 100 ≤ 100 ∧
    (o.limit = none →
      min (match o.limit with | none => 20 | some l => if l = 0 then 20 else l) 100 = 20) ∧
    (o.page = none →
      (match o.page with | none => 1 | some p => if p = 0 then 1 else p) = 1) ∧
    (list s appID o).1.length ≤
      min (match o.limit with | none => 20 | some l => if l = 0 then 20 else l) 100 := by
  refine ⟨?_, ?_, rfl, rfl, Nat.min_le_right _ _, ?_, ?_, ?_⟩
  · intro i hi
    simp only [list] at hi
    have h1 : i ∈ (s.db.filter (matchesFilter appID o.tags o.search)).mergeSort
        (fun a b => decide (b.createdAt ≤ a.createdAt)) :=
      List.mem_of_mem_drop (List.mem_of_mem_take hi)
    have h2 : i ∈ s.db.filter (matchesFilter appID o.tags o.search) :=
      (List.mergeSort_perm _ _).mem_iff.mp h1
    have h3 := List.mem_filter.mp h2
    have h4 := h3.2
    simp only [matchesFilter, Bool.and_eq_true, beq_iff_eq] at h4
    exact ⟨h3.1, h4.1.1.2, h4.1.1.1⟩
  · simp only [list]
    exact (pairwise_mergeSort_createdAt _).sublist
      ((List.take_sublist _ _).trans (List.drop_sublist _ _))
  · intro h
    rw [h]
    decide
  · intro h
    rw [h]
  · simp only [list]
    exact List.length_take_le _ _

end ImageSvc

namespace ImageSvc

/-- C8 witness: the list theorem applied at a concrete store with default options — the
total is the pre-pagination match count and the page is sorted newest-first. -/
theorem list_semantics_witness :
    (list sAct "app1" { page := none, limit := none, tags := none, search := none }).2 =
      (sAct.db.filter (matchesFilter "app1" none none)).length ∧
    (list sAct "app1"
        { page := none, limit := none, tags := none, search := none }).1.Pairwise
      (fun a b => b.createdAt ≤ a.createdAt) :=
  ⟨(list_semantics sAct "app1"
      { page := none, limit := none, tags := none, search := none }).2.2.1,
   (list_semantics sAct "app1"
      { page := none, limit := none, tags := none, search := none }).2.1⟩

/-- C9: in every create that succeeds, the stored filename is the generated identifier
concatenated with the extension chosen by the chain: the original filename's extension
when present and non-empty, else the extension mapped from the declared MIME type; and
since success implies the MIME type passed the allow-list check, the mapped extension is
never the generic `.bin` fallback — that branch is unreachable for accepted uploads. -/
theorem stored_filename_derivation (imageID : String) (now : Nat)
    (appID uploadedBy : String) (f : MulterFile) (metadata : MetaPatch) (s : StoreState)
    (img : Image) (s' : StoreState)
    (h : upload imageID now true appID uploadedBy (some f) metadata s = (.ok img, s')) :
    img.FileName = imageID ++ (if extname f.originalname ≠ "" then extname f.originalname
                               else getExtFromMime f.mimetype) ∧
    MIME_TYPES.contains f.mimetype = true ∧
    getExtFromMime f.mimetype ≠ ".bin" := by
  by_cases hm : MIME_TYPES.contains f.mimetype = true
  · refine ⟨?_, hm, ?_⟩
    · simp only [upload, hm, Bool.not_true, Bool.false_eq_true, if_false, if_true,
        Prod.mk.injEq, Except.ok.injEq] at h
      rw [← h.1]
    · have hmem : f.mimetype ∈ MIME_TYPES := by simpa using hm
      simp only [MIME_TYPES, List.mem_cons, List.not_mem_nil, or_false] at hmem
      rcases hmem with h5 | h5 | h5 | h5 | h5 <;> rw [h5] <;> decide
  · exfalso
    rw [Bool.not_eq_true] at hm
    simp only [upload, hm, Bool.not_false, if_true] at h
    exact absurd h (by simp)

/-- The record created by a concrete successful upload. -/
def img9 : Image :=
  { ImageID := "u9", AppID := "app1", FileName := "u9.png", OriginalFileName := "p.png",
    MimeType := "image/png", Size := 1, Tags := [], Description := "", Alt := "",
    Status := .active, UploadedBy := "app1", createdAt := 3 }

/-- The state after that upload. -/
def st9 : StoreState :=
  { db := [img9], dirs := ["app1"], fs := [(("app1", "u9.png"), [7])] }

/-- C9 witness: the filename theorem applied at a concrete successful PNG upload. -/
theorem stored_filename_derivation_witness :
    img9.FileName = "u9" ++ (if extname pngFile.originalname ≠ "" then
      extname pngFile.originalname else getExtFromMime pngFile.mimetype) ∧
    MIME_TYPES.contains pngFile.mimetype = true ∧
    getExtFromMime pngFile.mimetype ≠ ".bin" :=
  stored_filename_derivation "u9" 3 "app1" "app1" pngFile noMeta s0 img9 st9 rfl

theorem upload_ok_fields (imageID : String) (now : Nat) (saveOk : Bool)
    (appID uploadedBy : String) (file : Option MulterFile) (metadata : MetaPatch)
    (s : StoreState) (img : Image) (s' : StoreState)
    (h : upload imageID now saveOk appID uploadedBy file metadata s = (.ok img, s')) :
    img.AppID = appID ∧ img.UploadedBy = uploadedBy := by
  cases file with
  | none => exact absurd h (by simp [upload])
  | some f =>
    simp only [upload] at h
    split at h
    · exact absurd h (by simp)
    · cases saveOk with
      | true =>
        rw [if_pos rfl] at h
        rw [Prod.mk.injEq] at h
        obtain ⟨h1, h2⟩ := h
        injection h1 with h3
        rw [← h3]
        exact ⟨rfl, rfl⟩
      | false =>
        rw [if_neg (by simp)] at h
        exact absurd h (by simp)

/-- C10: every image created through the HTTP upload endpoint records the authenticated
API key's application name as both the tenant and the uploader, so the uploader identity
always equals the tenant identifier on records created via the public interface. -/
theorem uploader_equals_tenant (imageID : String) (now : Nat) (saveOk : Bool)
    (k : ApiKeyRecord) (file : Option MulterFile) (parsedTags : List String)
    (description alt : Option String) (s : StoreState) (img : Image) (s' : StoreState)
    (h : controllerUpload imageID now saveOk k file parsedTags description alt s =
      (.ok img, s')) :
    img.AppID = k.AppName ∧ img.UploadedBy = k.AppName ∧ img.UploadedBy = img.AppID := by
  have hup : upload imageID now saveOk k.AppName k.AppName file
      { tags := some parsedTags, description := description, alt := alt } s =
      (.ok img, s') := by
    cases file with
    | none => exact h
    | some f =>
      by_cases hsz : FILE_SIZE_LIMIT < f.size
      · simp only [controllerUpload, if_pos hsz] at h
        exact absurd h (by simp)
      · simp only [controllerUpload, if_neg hsz] at h
        exact h
  obtain ⟨h1, h2⟩ := upload_ok_fields imageID now saveOk k.AppName k.AppName file
    { tags := some parsedTags, description := description, alt := alt } s img s' hup
  exact ⟨h1, h2, h2.trans h1.symm⟩

/-- The record created by a concrete upload through the controller. -/
def img10 : Image :=
  { ImageID := "u10", AppID := "app1", FileName := "u10.png", OriginalFileName := "p.png",
    MimeType := "image/png", Size := 1, Tags := [], Description := "", Alt := "",
    Status := .active, UploadedBy := "app1", createdAt := 4 }

/-- The state after that upload. -/
def st10 : StoreState :=
  { db := [img10], dirs := ["app1"], fs := [(("app1", "u10.png"), [7])] }

/-- C10 witness: the theorem applied at a concrete upload through the controller with the
key `keyApp`. -/
theorem uploader_equals_tenant_witness :
    img10.AppID = keyApp.AppName ∧ img10.UploadedBy = keyApp.AppName ∧
    img10.UploadedBy = img10.AppID :=
  uploader_equals_tenant "u10" 4 true keyApp (some pngFile) [] none none s0 img10 st10 rfl

end ImageSvc
